import Mathlib

/-!
Shallow embedding of the levain repository's SPARKLE-512 pseudo-random
generator core and of its host-language wrapper layer.

Sources embedded here:
* `src/py/sparklyRG/sparkle512.cpp`  — the `Sparkle512core` C++ class
  (permutation, absorb, squeeze, bit sampler, range sampler);
* `src/py/cpputils.pyx`              — the Cython `SparkleRG` wrapper
  (argument checks, zero padding of absorbed blocks);
* `src/py/sparklyRG.org`             — the `EschRG` Python wrapper
  (block-size check) and the tangled `wrapper.pyx` padding variant;
* `src/unnamed/part_001`             — the standalone C function
  `sparkle_512_permutation`;
* `src/unnamed/part_002`             — the `Sparkle512EDF` class, whose
  `_update_state` contains a third copy of the permutation round loop.

Machine integers are modelled as `Nat` with explicit reduction modulo
`2^32` (the state words are `uint32_t`) or `2^64` where overflow can
occur.  Every state word produced by the definitions below stays below
`2^32`: XOR and OR of values below `2^32` stay below `2^32`, and every
addition is reduced explicitly.
-/

/-- The macro `ROT(x, n) = (((x) >> (n)) | ((x) << (32-(n))))` on
`uint32_t`, defined identically in `sparkle512.cpp`, `part_001` and
`part_002`.  Left shift is reduced mod `2^32` as the C type does. -/
def rot32 (x n : Nat) : Nat := (x >>> n) ||| ((x <<< (32 - n)) % 4294967296)

/-- The macro `ELL(x) = ROT(((x) ^ ((x) << 16)), 16)`, defined
identically in the three permutation sources. -/
def ell (x : Nat) : Nat := rot32 (x ^^^ ((x <<< 16) % 4294967296)) 16

/-- The round-constant table `RCON`, identical (same eight 32-bit
constants) in `sparkle512.cpp`, `part_001` and `part_002`. -/
def RCON : List Nat :=
  [0xB7E15162, 0xBF715880, 0x38B4DA56, 0x324E7738,
   0xBB1185EB, 0x4F7C7B57, 0xCFBFA1C8, 0xC2B3293D]

/-- One ARXBOX application on the word pair `(x, y)` with the pair
constant `rc`: the twelve-operation sequence that the ARX layer of all
three permutation sources applies to `state[j], state[j+1]`. -/
def arxbox (rc x y : Nat) : Nat × Nat :=
  let x := (x + rot32 y 31) % 4294967296
  let y := y ^^^ rot32 x 24
  let x := x ^^^ rc
  let x := (x + rot32 y 17) % 4294967296
  let y := y ^^^ rot32 x 17
  let x := x ^^^ rc
  let x := (x + y) % 4294967296
  let y := y ^^^ rot32 x 31
  let x := x ^^^ rc
  let x := (x + rot32 y 24) % 4294967296
  let y := y ^^^ rot32 x 16
  let x := x ^^^ rc
  (x, y)

/-- The ARXBOX layer of `Sparkle512core::_permute`
(`sparkle512.cpp`): `for(j = 0; j < 2*N_BRANCHES; j += 2)` with
`rc = RCON[j>>1]`, applied to the pairs `(state[j], state[j+1])`,
unrolled for `N_BRANCHES = 8`. -/
def arxLayer (st : List Nat) : List Nat :=
  let st := let p := arxbox (RCON.getD 0 0) (st.getD 0 0) (st.getD 1 0); (st.set 0 p.1).set 1 p.2
  let st := let p := arxbox (RCON.getD 1 0) (st.getD 2 0) (st.getD 3 0); (st.set 2 p.1).set 3 p.2
  let st := let p := arxbox (RCON.getD 2 0) (st.getD 4 0) (st.getD 5 0); (st.set 4 p.1).set 5 p.2
  let st := let p := arxbox (RCON.getD 3 0) (st.getD 6 0) (st.getD 7 0); (st.set 6 p.1).set 7 p.2
  let st := let p := arxbox (RCON.getD 4 0) (st.getD 8 0) (st.getD 9 0); (st.set 8 p.1).set 9 p.2
  let st := let p := arxbox (RCON.getD 5 0) (st.getD 10 0) (st.getD 11 0); (st.set 10 p.1).set 11 p.2
  let st := let p := arxbox (RCON.getD 6 0) (st.getD 12 0) (st.getD 13 0); (st.set 12 p.1).set 13 p.2
  let st := let p := arxbox (RCON.getD 7 0) (st.getD 14 0) (st.getD 15 0); (st.set 14 p.1).set 15 p.2
  st

/-- The linear layer of `Sparkle512core::_permute` (`sparkle512.cpp`),
with the two loops over `j = 2, 4, 6` unrolled; every read happens at
the same sequential position as in the source, so the pre-write values
are the ones the source reads. -/
def linLayer (st : List Nat) : List Nat :=
  let x0 := st.getD 0 0
  let y0 := st.getD 1 0
  let tmpx := ell (x0 ^^^ st.getD 2 0 ^^^ st.getD 4 0 ^^^ st.getD 6 0)
  let tmpy := ell (y0 ^^^ st.getD 3 0 ^^^ st.getD 5 0 ^^^ st.getD 7 0)
  let st := st.set 0 (st.getD 10 0 ^^^ st.getD 2 0 ^^^ tmpy)
  let st := st.set 10 (st.getD 2 0)
  let st := st.set 1 (st.getD 11 0 ^^^ st.getD 3 0 ^^^ tmpx)
  let st := st.set 11 (st.getD 3 0)
  let st := st.set 2 (st.getD 12 0 ^^^ st.getD 4 0 ^^^ tmpy)
  let st := st.set 12 (st.getD 4 0)
  let st := st.set 3 (st.getD 13 0 ^^^ st.getD 5 0 ^^^ tmpx)
  let st := st.set 13 (st.getD 5 0)
  let st := st.set 4 (st.getD 14 0 ^^^ st.getD 6 0 ^^^ tmpy)
  let st := st.set 14 (st.getD 6 0)
  let st := st.set 5 (st.getD 15 0 ^^^ st.getD 7 0 ^^^ tmpx)
  let st := st.set 15 (st.getD 7 0)
  let st := st.set 6 (st.getD 8 0 ^^^ x0 ^^^ tmpy)
  let st := st.set 8 x0
  let st := st.set 7 (st.getD 9 0 ^^^ y0 ^^^ tmpx)
  let st := st.set 9 y0
  st

/-- One round `i` of `Sparkle512core::_permute`: round-constant
addition (`state[1] ^= RCON[i % N_BRANCHES]; state[3] ^= i`, the round
index taken as a 32-bit unsigned value), then the ARXBOX layer, then
the linear layer. -/
def sparkleRound (i : Nat) (st : List Nat) : List Nat :=
  let st := st.set 1 (st.getD 1 0 ^^^ RCON.getD (i % 8) 0)
  let st := st.set 3 (st.getD 3 0 ^^^ (i % 4294967296))
  linLayer (arxLayer st)

/-- The step loop `for(i = 0; i < steps; i++)` of
`Sparkle512core::_permute`, counting the remaining rounds. -/
def permLoop (i : Nat) : Nat → List Nat → List Nat
  | 0, st => st
  | k + 1, st => permLoop (i + 1) k (sparkleRound i st)

/-- `Sparkle512core::_permute` as a state transformation parameterised
by the `steps` member. -/
def permuteSteps (steps : Nat) (st : List Nat) : List Nat := permLoop 0 steps st

/-- Parity of the low 64 bits of a value: `__builtin_parityll`, used by
`Sparkle512core::_squeeze` (its arguments are below `2^32`, so folding
the first 64 bit positions is exact). -/
def parity64 (x : Nat) : Bool := (List.range 64).foldl (fun b j => xor b (x.testBit j)) false

/-- `Sparkle512core::_squeeze` tank contents: the source loops
`for (i = 0; i < entropy_tank.size(); i += 32)` with `k = i / 32` and
writes `entropy_tank[i+j] = parity(state[k] >> j)` for `j < 32`; unit
`p = i + j` therefore holds `parity(state[p / 32] >> (p % 32))`.  This
transcription is exact in the regime where the source's vector writes
stay in bounds (`rate` a multiple of 32, at most 512). -/
def squeezeTank (st : List Nat) (rate : Nat) : List Bool :=
  (List.range rate).map (fun p => parity64 ((st.getD (p / 32) 0) >>> (p % 32)))

/-- The data of the C++ class `Sparkle512core` (`sparkle512.cpp`):
round count, the sixteen 32-bit state words, the `vector<bool>` entropy
tank and the cursor into it. -/
structure Sparkle512core where
  steps : Nat
  state : List Nat
  entropy_tank : List Bool
  entropy_cursor : Nat
deriving DecidableEq, Repr

/-- The `Sparkle512core` constructor: zero steps, all-zero state, empty
tank, cursor 0. -/
def Sparkle512core.init : Sparkle512core :=
  { steps := 0, state := List.replicate 16 0, entropy_tank := [], entropy_cursor := 0 }

/-- `Sparkle512core::setup`: store the step count and replace the tank
with `output_rate` cleared units (`entropy_tank.assign(_output_rate,
false)`); the cursor is not touched. -/
def Sparkle512core.setup (c : Sparkle512core) (s output_rate : Nat) : Sparkle512core :=
  { c with steps := s, entropy_tank := List.replicate output_rate false }

/-- The byte-folding loop of `Sparkle512core::absorb`:
`for(i = 0; i < byte_array.size(); i += 4)` with inner
`state[i >> 2] ^= ((uint32_t)byte_array[i + j]) << (8*j)` for
`j = 0..3`, transcribed as four sequential XOR-updates of word
`w = i >> 2` (the source is in-bounds when the length is a multiple of
4 and at most 64). -/
def absorbFold (st : List Nat) (byte_array : List Nat) : List Nat :=
  (List.range (byte_array.length / 4)).foldl
    (fun s w =>
      let s := s.set w (s.getD w 0 ^^^ ((byte_array.getD (4 * w) 0) <<< 0))
      let s := s.set w (s.getD w 0 ^^^ ((byte_array.getD (4 * w + 1) 0) <<< 8))
      let s := s.set w (s.getD w 0 ^^^ ((byte_array.getD (4 * w + 2) 0) <<< 16))
      let s := s.set w (s.getD w 0 ^^^ ((byte_array.getD (4 * w + 3) 0) <<< 24))
      s)
    st

/-- `Sparkle512core::absorb`: XOR 1 into `state[2*N_BRANCHES-1]`
(word 15), fold the byte array into the state, permute, XOR 2 into
word 15, permute again, then squeeze (which rewrites the whole tank
and resets the cursor to 0). -/
def Sparkle512core.absorb (c : Sparkle512core) (byte_array : List Nat) : Sparkle512core :=
  let st := c.state.set 15 (c.state.getD 15 0 ^^^ 1)
  let st := absorbFold st byte_array
  let st := permuteSteps c.steps st
  let st := st.set 15 (st.getD 15 0 ^^^ 2)
  let st := permuteSteps c.steps st
  { c with
      state := st
      entropy_tank := squeezeTank st c.entropy_tank.length
      entropy_cursor := 0 }

/-- The tank-refill path of `Sparkle512core::get_n_bit_unsigned_integer`:
`_permute(); _squeeze();` run when the cursor has reached the tank
size. -/
def Sparkle512core.refill (c : Sparkle512core) : Sparkle512core :=
  let st := permuteSteps c.steps c.state
  { c with
      state := st
      entropy_tank := squeezeTank st c.entropy_tank.length
      entropy_cursor := 0 }

/-- The value the C++ expression `(1 << i)` contributes to the
`uint64_t` accumulator in `get_n_bit_unsigned_integer`.  The literal
`1` has type `int` (32 bits): at `i = 31` the result is `INT_MIN`,
which sign-extends to `2^64 - 2^31` on conversion to `uint64_t`; for
`32 <= i <= 63` the shift is undefined behaviour in C++, modelled here
with the 5-bit shift-count masking of x86-64 (`1 << (i % 32)`), again
sign-extended.  For `i <= 30` the value is the intended `2^i`. -/
def intShift1 (i : Nat) : Nat :=
  if i % 32 = 31 then 18446744071562067968 else 2 ^ (i % 32)

/-- The bit-collection loop of
`Sparkle512core::get_n_bit_unsigned_integer`: argument `i` is the loop
counter, the third argument counts the remaining iterations; each
iteration refills the tank if the cursor has reached its size, ORs
`(1 << i)` into the accumulator when the consumed tank unit is set,
and advances the cursor. -/
def getBitsAux : Nat → Nat → Nat → Sparkle512core → Nat × Sparkle512core
  | _, result, 0, c => (result, c)
  | i, result, k + 1, c =>
    let c := if c.entropy_cursor = c.entropy_tank.length then c.refill else c
    let result :=
      if c.entropy_tank.getD c.entropy_cursor false then result ||| intShift1 i else result
    getBitsAux (i + 1) result k { c with entropy_cursor := c.entropy_cursor + 1 }

/-- `Sparkle512core::get_n_bit_unsigned_integer(n)`: run the
bit-collection loop for `n` iterations starting from accumulator 0,
returning the accumulator and the mutated core. -/
def Sparkle512core.get_n_bit_unsigned_integer (c : Sparkle512core) (n : Nat) :
    Nat × Sparkle512core :=
  getBitsAux 0 0 n c

/-- Bit-scan over the 64 bit positions of a `uint64_t` value: one plus
the position of the highest set bit (0 for the value 0). -/
def bitlen64 (x : Nat) : Nat :=
  (List.range 64).foldl (fun acc j => if x.testBit j then j + 1 else acc) 0

/-- `__builtin_clzll` on a `uint64_t` argument: the number of leading
zero bits, 64 minus the bit-scan length. -/
def clzll (x : Nat) : Nat := 64 - bitlen64 x

/-- The `bit_length` computed by
`Sparkle512core::get_unsigned_integer_in_range`:
`64 - __builtin_clzll(upper_bound - lower_bound)`. -/
def bitLengthC (range : Nat) : Nat := 64 - clzll range

/-- The `do { output = get_n_bit_unsigned_integer(bit_length); } while
(output >= range)` rejection loop of
`Sparkle512core::get_unsigned_integer_in_range`, made total with a
fuel parameter: `none` models a run that has not yet accepted a draw
within `fuel` iterations. -/
def getUniformLoop (bit_length range : Nat) : Nat → Sparkle512core → Option (Nat × Sparkle512core)
  | 0, _ => none
  | fuel + 1, c =>
    let r := c.get_n_bit_unsigned_integer bit_length
    if r.1 ≥ range then getUniformLoop bit_length range fuel r.2
    else some (r.1, r.2)

/-- `Sparkle512core::get_unsigned_integer_in_range(lower, upper)`:
compute `bit_length = 64 - clzll(upper - lower)` and
`range = upper - lower`, run the rejection loop, and return
`lower_bound + output` (the accepted `output` is below `range`, so the
`uint64_t` addition does not wrap). -/
def Sparkle512core.get_unsigned_integer_in_range
    (fuel : Nat) (c : Sparkle512core) (lower_bound upper_bound : Nat) :
    Option (Nat × Sparkle512core) :=
  let bit_length := bitLengthC (upper_bound - lower_bound)
  let range := upper_bound - lower_bound
  (getUniformLoop bit_length range fuel c).map (fun r => (lower_bound + r.1, r.2))

/-- The padding of `SparkleRG.absorb` in `cpputils.pyx`:
`to_absorb = x + bytearray([0] * (48 - len(x)))` (for payloads longer
than 48 bytes the `bytearray` count is negative, so no padding is
appended). -/
def pad48 (x : List Nat) : List Nat := x ++ List.replicate (48 - x.length) 0

/-- `SparkleRG.__init__(steps, output_rate)` from `cpputils.pyx`: build
a fresh core and call `setup`; the method contains no `raise`, hence
the unconditional `Except.ok`. -/
def SparkleRG.initE (steps output_rate : Nat) : Except String Sparkle512core :=
  .ok (Sparkle512core.init.setup steps output_rate)

/-- `SparkleRG.absorb(x)` from `cpputils.pyx`: zero-pad to 48 bytes and
pass to the core. -/
def SparkleRG.absorb (c : Sparkle512core) (x : List Nat) : Sparkle512core :=
  c.absorb (pad48 x)

/-- `SparkleRG.absorb(x)` from `cpputils.pyx` with its error behaviour
made explicit: the method body performs no size check and contains no
`raise`, so it is the unconditional `Except.ok` of the unchecked
absorption. -/
def SparkleRG.absorbE (c : Sparkle512core) (x : List Nat) : Except String Sparkle512core :=
  .ok (SparkleRG.absorb c x)

/-- `SparkleRG.get_n_bit_unsigned_integer(n)` from `cpputils.pyx`:
raise for `n > 64` before touching the core (the paired core value is
returned unchanged in that case), otherwise delegate. -/
def SparkleRG.get_n_bit_unsigned_integer (c : Sparkle512core) (n : Nat) :
    Except String Nat × Sparkle512core :=
  if n > 64 then (.error "Cannot return integers more than 64-bit long", c)
  else
    let r := c.get_n_bit_unsigned_integer n
    (.ok r.1, r.2)

/-- `SparkleRG.__call__(lower, upper)` from `cpputils.pyx`: raise for
`upper <= lower` before touching the core, otherwise delegate to the
range sampler (with `none` propagated when the fuel runs out before a
draw is accepted; the core is returned unchanged in that case since no
accepted trace exists to report). -/
def SparkleRG.call (fuel : Nat) (c : Sparkle512core) (lower upper : Nat) :
    Except String (Option Nat) × Sparkle512core :=
  if upper ≤ lower then (.error "`upper` must be strictly higher than `lower`", c)
  else
    match c.get_unsigned_integer_in_range fuel lower upper with
    | none => (.ok none, c)
    | some r => (.ok (some r.1), r.2)

/-- The padding of the tangled `wrapper.pyx` `SparkleRG.absorb` in
`sparklyRG.org` (the variant `EschRG` inherits from):
`to_absorb = x + b"1" + b"0"*(63 - len(x))`, i.e. the ASCII byte `0x31`
followed by ASCII `0x30` bytes up to 64 bytes total. -/
def wrapperPad (x : List Nat) : List Nat := x ++ [49] ++ List.replicate (63 - x.length) 48

/-- The `absorb` of the tangled `wrapper.pyx` `SparkleRG` in
`sparklyRG.org`. -/
def WrapperRG.absorb (c : Sparkle512core) (x : List Nat) : Sparkle512core :=
  c.absorb (wrapperPad x)

/-- `EschRG._absorb_block(x)` from `sparklyRG.org` for a byte payload:
raise when `len(to_absorb) > 31`, otherwise absorb through the
inherited wrapper `absorb` (the `absorbed` bookkeeping list is host
convenience and not part of the core state). -/
def EschRG.absorb_block (c : Sparkle512core) (x : List Nat) : Except String Sparkle512core :=
  if x.length > 31 then .error "block is too big, max length is 31 bytes"
  else .ok (WrapperRG.absorb c x)

/-- One externally visible operation of the generator, for determinism
statements: absorb a block, sample `n` bits, or sample a uniform value
in a half-open range. -/
inductive RGOp where
  | absorbOp (data : List Nat)
  | getBitsOp (n : Nat)
  | getUniformOp (lower upper : Nat)
deriving DecidableEq, Repr

/-- Run one operation through the `cpputils.pyx` wrapper layer,
returning the observable answer (absorb answers nothing) and the new
core. -/
def runOp (fuel : Nat) (c : Sparkle512core) : RGOp → Except String (Option Nat) × Sparkle512core
  | .absorbOp data => (.ok none, SparkleRG.absorb c data)
  | .getBitsOp n =>
    let r := SparkleRG.get_n_bit_unsigned_integer c n
    (r.1.map some, r.2)
  | .getUniformOp lower upper => SparkleRG.call fuel c lower upper

/-- Run a list of operations, recording after every single call both
the observable answer and the complete core (state words, tank,
cursor). -/
def runTrace (fuel : Nat) (c : Sparkle512core) :
    List RGOp → List (Except String (Option Nat) × Sparkle512core)
  | [] => []
  | op :: ops =>
    let r := runOp fuel c op
    r :: runTrace fuel r.2 ops

/-- A generator constructed with configuration `(steps, rate)` that has
absorbed the given blocks in order through the wrapper. -/
def mkGen (steps rate : Nat) (blocks : List (List Nat)) : Sparkle512core :=
  blocks.foldl SparkleRG.absorb (Sparkle512core.init.setup steps rate)

/-- The ARXBOX layer of `sparkle_512_permutation` (`src/unnamed/part_001`):
`for(j = 0; j < 2*brans; j += 2)` with `brans = 8` and
`rc = RCON[j>>1]`, the same twelve-operation pair update. -/
def refArxLayer (st : List Nat) : List Nat :=
  let st := let p := arxbox (RCON.getD 0 0) (st.getD 0 0) (st.getD 1 0); (st.set 0 p.1).set 1 p.2
  let st := let p := arxbox (RCON.getD 1 0) (st.getD 2 0) (st.getD 3 0); (st.set 2 p.1).set 3 p.2
  let st := let p := arxbox (RCON.getD 2 0) (st.getD 4 0) (st.getD 5 0); (st.set 4 p.1).set 5 p.2
  let st := let p := arxbox (RCON.getD 3 0) (st.getD 6 0) (st.getD 7 0); (st.set 6 p.1).set 7 p.2
  let st := let p := arxbox (RCON.getD 4 0) (st.getD 8 0) (st.getD 9 0); (st.set 8 p.1).set 9 p.2
  let st := let p := arxbox (RCON.getD 5 0) (st.getD 10 0) (st.getD 11 0); (st.set 10 p.1).set 11 p.2
  let st := let p := arxbox (RCON.getD 6 0) (st.getD 12 0) (st.getD 13 0); (st.set 12 p.1).set 13 p.2
  let st := let p := arxbox (RCON.getD 7 0) (st.getD 14 0) (st.getD 15 0); (st.set 14 p.1).set 15 p.2
  st

/-- The linear layer of `sparkle_512_permutation`
(`src/unnamed/part_001`), loops over `j = 2, 4, 6` unrolled with
`brans = 8`. -/
def refLinLayer (st : List Nat) : List Nat :=
  let x0 := st.getD 0 0
  let y0 := st.getD 1 0
  let tmpx := ell (x0 ^^^ st.getD 2 0 ^^^ st.getD 4 0 ^^^ st.getD 6 0)
  let tmpy := ell (y0 ^^^ st.getD 3 0 ^^^ st.getD 5 0 ^^^ st.getD 7 0)
  let st := st.set 0 (st.getD 10 0 ^^^ st.getD 2 0 ^^^ tmpy)
  let st := st.set 10 (st.getD 2 0)
  let st := st.set 1 (st.getD 11 0 ^^^ st.getD 3 0 ^^^ tmpx)
  let st := st.set 11 (st.getD 3 0)
  let st := st.set 2 (st.getD 12 0 ^^^ st.getD 4 0 ^^^ tmpy)
  let st := st.set 12 (st.getD 4 0)
  let st := st.set 3 (st.getD 13 0 ^^^ st.getD 5 0 ^^^ tmpx)
  let st := st.set 13 (st.getD 5 0)
  let st := st.set 4 (st.getD 14 0 ^^^ st.getD 6 0 ^^^ tmpy)
  let st := st.set 14 (st.getD 6 0)
  let st := st.set 5 (st.getD 15 0 ^^^ st.getD 7 0 ^^^ tmpx)
  let st := st.set 15 (st.getD 7 0)
  let st := st.set 6 (st.getD 8 0 ^^^ x0 ^^^ tmpy)
  let st := st.set 8 x0
  let st := st.set 7 (st.getD 9 0 ^^^ y0 ^^^ tmpx)
  let st := st.set 9 y0
  st

/-- One round `i` of `sparkle_512_permutation`
(`src/unnamed/part_001`): `state[1] ^= RCON[i%MAX_BRANCHES];
state[3] ^= i;` (the `int` round index is non-negative and converts to
`uint32_t` as its value mod `2^32`), then the ARXBOX and linear
layers. -/
def refRound (i : Nat) (st : List Nat) : List Nat :=
  let st := st.set 1 (st.getD 1 0 ^^^ RCON.getD (i % 8) 0)
  let st := st.set 3 (st.getD 3 0 ^^^ (i % 4294967296))
  refLinLayer (refArxLayer st)

/-- The step loop of `sparkle_512_permutation`
(`src/unnamed/part_001`). -/
def refLoop (i : Nat) : Nat → List Nat → List Nat
  | 0, st => st
  | k + 1, st => refLoop (i + 1) k (refRound i st)

/-- The standalone C function `sparkle_512_permutation(state, steps)`
from `src/unnamed/part_001`. -/
def sparkle_512_permutation (st : List Nat) (steps : Nat) : List Nat := refLoop 0 steps st

/-- The ARXBOX layer of the round loop inside
`Sparkle512EDF::_update_state` (`src/unnamed/part_002`), `brans = 8`,
`rc = RCON[j>>1]`. -/
def edfArxLayer (st : List Nat) : List Nat :=
  let st := let p := arxbox (RCON.getD 0 0) (st.getD 0 0) (st.getD 1 0); (st.set 0 p.1).set 1 p.2
  let st := let p := arxbox (RCON.getD 1 0) (st.getD 2 0) (st.getD 3 0); (st.set 2 p.1).set 3 p.2
  let st := let p := arxbox (RCON.getD 2 0) (st.getD 4 0) (st.getD 5 0); (st.set 4 p.1).set 5 p.2
  let st := let p := arxbox (RCON.getD 3 0) (st.getD 6 0) (st.getD 7 0); (st.set 6 p.1).set 7 p.2
  let st := let p := arxbox (RCON.getD 4 0) (st.getD 8 0) (st.getD 9 0); (st.set 8 p.1).set 9 p.2
  let st := let p := arxbox (RCON.getD 5 0) (st.getD 10 0) (st.getD 11 0); (st.set 10 p.1).set 11 p.2
  let st := let p := arxbox (RCON.getD 6 0) (st.getD 12 0) (st.getD 13 0); (st.set 12 p.1).set 13 p.2
  let st := let p := arxbox (RCON.getD 7 0) (st.getD 14 0) (st.getD 15 0); (st.set 14 p.1).set 15 p.2
  st

/-- The linear layer of the round loop inside
`Sparkle512EDF::_update_state` (`src/unnamed/part_002`). -/
def edfLinLayer (st : List Nat) : List Nat :=
  let x0 := st.getD 0 0
  let y0 := st.getD 1 0
  let tmpx := ell (x0 ^^^ st.getD 2 0 ^^^ st.getD 4 0 ^^^ st.getD 6 0)
  let tmpy := ell (y0 ^^^ st.getD 3 0 ^^^ st.getD 5 0 ^^^ st.getD 7 0)
  let st := st.set 0 (st.getD 10 0 ^^^ st.getD 2 0 ^^^ tmpy)
  let st := st.set 10 (st.getD 2 0)
  let st := st.set 1 (st.getD 11 0 ^^^ st.getD 3 0 ^^^ tmpx)
  let st := st.set 11 (st.getD 3 0)
  let st := st.set 2 (st.getD 12 0 ^^^ st.getD 4 0 ^^^ tmpy)
  let st := st.set 12 (st.getD 4 0)
  let st := st.set 3 (st.getD 13 0 ^^^ st.getD 5 0 ^^^ tmpx)
  let st := st.set 13 (st.getD 5 0)
  let st := st.set 4 (st.getD 14 0 ^^^ st.getD 6 0 ^^^ tmpy)
  let st := st.set 14 (st.getD 6 0)
  let st := st.set 5 (st.getD 15 0 ^^^ st.getD 7 0 ^^^ tmpx)
  let st := st.set 15 (st.getD 7 0)
  let st := st.set 6 (st.getD 8 0 ^^^ x0 ^^^ tmpy)
  let st := st.set 8 x0
  let st := st.set 7 (st.getD 9 0 ^^^ y0 ^^^ tmpx)
  let st := st.set 9 y0
  st

/-- One round `i` of the loop in `Sparkle512EDF::_update_state`
(`src/unnamed/part_002`): `state[1] ^= RCON[i%MAX_BRANCHES];
state[3] ^= i;`, ARXBOX layer, linear layer. -/
def edfRound (i : Nat) (st : List Nat) : List Nat :=
  let st := st.set 1 (st.getD 1 0 ^^^ RCON.getD (i % 8) 0)
  let st := st.set 3 (st.getD 3 0 ^^^ (i % 4294967296))
  edfLinLayer (edfArxLayer st)

/-- The round loop `for(i = 0; i < steps; i++)` of
`Sparkle512EDF::_update_state` (`src/unnamed/part_002`), parameterised
by the `steps` member (fixed to `N_STEPS = 4` by the EDF constructor). -/
def edfLoopFrom (i : Nat) : Nat → List Nat → List Nat
  | 0, st => st
  | k + 1, st => edfLoopFrom (i + 1) k (edfRound i st)

/-- The full round loop of `Sparkle512EDF::_update_state` with `steps`
rounds; `_update_state` then refreshes its byte tank from the state,
which does not touch the state words themselves. -/
def edfRoundLoop (steps : Nat) (st : List Nat) : List Nat := edfLoopFrom 0 steps st

/-- The spec's absorb step 1 and step 4: XOR a domain-separation
constant into the last state word (the capacity word, index 15). -/
def xorCapacityWord (k : Nat) (st : List Nat) : List Nat := st.set 15 (st.getD 15 0 ^^^ k)

/-- The `w`-th little-endian 32-bit chunk of a byte sequence, assembled
as the OR of its four bytes shifted into their byte positions (bytes
are below 256, so the contributions occupy disjoint bit ranges). -/
def leChunk (b : List Nat) (w : Nat) : Nat :=
  b.getD (4 * w) 0 ||| ((b.getD (4 * w + 1) 0) <<< 8)
    ||| ((b.getD (4 * w + 2) 0) <<< 16) ||| ((b.getD (4 * w + 3) 0) <<< 24)

/-- The spec's absorb step 2: interpret the (padded) data as
little-endian 32-bit chunks and XOR each chunk into successive state
words starting at word 0. -/
def specFold (st b : List Nat) : List Nat :=
  (List.range (b.length / 4)).foldl (fun s w => s.set w (s.getD w 0 ^^^ leChunk b w)) st

/-- The absorb sequence exactly as the spec states it: XOR domain
constant 1 into the last word; fold the zero-padded data in as
little-endian 32-bit chunks from word 0; permute; XOR domain constant
2 into the last word; permute; squeeze (tank rewritten, cursor 0). -/
def absorbSpec (c : Sparkle512core) (data : List Nat) : Sparkle512core :=
  let st := xorCapacityWord 1 c.state
  let st := specFold st (pad48 data)
  let st := permuteSteps c.steps st
  let st := xorCapacityWord 2 st
  let st := permuteSteps c.steps st
  { c with
      state := st
      entropy_tank := squeezeTank st c.entropy_tank.length
      entropy_cursor := 0 }

/-- The successive outputs of `get_n_bit_unsigned_integer(bit_length)`
starting from core `c`: draw `k + 1` is taken from the core returned
by draw `k`.  This is exactly the sequence of draws the rejection loop
of `get_unsigned_integer_in_range` consumes. -/
def drawStream (bit_length : Nat) (c : Sparkle512core) : Nat → Nat × Sparkle512core
  | 0 => c.get_n_bit_unsigned_integer bit_length
  | k + 1 => (drawStream bit_length c k).2.get_n_bit_unsigned_integer bit_length

theorem refRound_eq_sparkleRound : refRound = sparkleRound := rfl

theorem edfRound_eq_sparkleRound : edfRound = sparkleRound := rfl

theorem refLoop_eq_permLoop (k i : Nat) (st : List Nat) : refLoop i k st = permLoop i k st := by
  induction k generalizing i st with
  | zero => rfl
  | succ k ih =>
    show refLoop (i + 1) k (refRound i st) = permLoop (i + 1) k (sparkleRound i st)
    rw [refRound_eq_sparkleRound]
    exact ih (i + 1) _

theorem edfLoopFrom_eq_permLoop (k i : Nat) (st : List Nat) :
    edfLoopFrom i k st = permLoop i k st := by
  induction k generalizing i st with
  | zero => rfl
  | succ k ih =>
    show edfLoopFrom (i + 1) k (edfRound i st) = permLoop (i + 1) k (sparkleRound i st)
    rw [edfRound_eq_sparkleRound]
    exact ih (i + 1) _

/-- C10: for every 16-word 32-bit state and every step count `s`, the
standalone `sparkle_512_permutation(state, s)` computes exactly the
same state transformation as `Sparkle512core::_permute` run with
`steps = s`, and the same as the round loop of
`Sparkle512EDF::_update_state` with `steps = s`: the three permutation
implementations in the repository are bit-for-bit equivalent. -/
theorem claim_C10_permutation_equivalence (st : List Nat) (s : Nat) :
    sparkle_512_permutation st s = permuteSteps s st ∧ edfRoundLoop s st = permuteSteps s st :=
  ⟨refLoop_eq_permLoop s 0 st, edfLoopFrom_eq_permLoop s 0 st⟩

/-- C9: for a fixed `(steps, output_rate)` configuration and a fixed
ordered sequence of absorbed blocks, two independently constructed
generators are bit-identical as cores and return identical answer and
core traces (state, tank, cursor recorded after every call) for every
identical sequence of `get_bits` / `get_uniform` / `absorb` calls with
identical arguments. -/
theorem claim_C9_determinism (steps rate fuel : Nat) (blocks : List (List Nat))
    (ops : List RGOp) (g1 g2 : Sparkle512core)
    (h1 : g1 = mkGen steps rate blocks) (h2 : g2 = mkGen steps rate blocks) :
    g1 = g2 ∧ runTrace fuel g1 ops = runTrace fuel g2 ops := by
  subst h1; subst h2; exact ⟨rfl, rfl⟩

theorem claim_C9_determinism_witness :
    mkGen 4 32 [[1, 2]] = mkGen 4 32 [[1, 2]] ∧
      runTrace 1 (mkGen 4 32 [[1, 2]]) [RGOp.getBitsOp 3]
        = runTrace 1 (mkGen 4 32 [[1, 2]]) [RGOp.getBitsOp 3] :=
  claim_C9_determinism 4 32 1 [[1, 2]] [RGOp.getBitsOp 3] _ _ rfl rfl

/-- C8: `get_bits(n)` with `n > 64` and `get_uniform(lower, upper)`
with `upper <= lower` fail with the wrapper's argument errors, raised
at the offending call with the paired core returned exactly as it was
(state words, tank and cursor unchanged), so the caller may correct
the arguments and retry. -/
theorem claim_C8_invalid_arguments (c : Sparkle512core) (n fuel lower upper : Nat) :
    (64 < n → SparkleRG.get_n_bit_unsigned_integer c n
        = (.error "Cannot return integers more than 64-bit long", c)) ∧
      (upper ≤ lower → SparkleRG.call fuel c lower upper
        = (.error "`upper` must be strictly higher than `lower`", c)) := by
  constructor
  · intro h
    unfold SparkleRG.get_n_bit_unsigned_integer
    rw [if_pos h]
  · intro h
    unfold SparkleRG.call
    rw [if_pos h]

theorem claim_C8_invalid_arguments_witness :
    SparkleRG.get_n_bit_unsigned_integer (Sparkle512core.init.setup 4 32) 65
        = (.error "Cannot return integers more than 64-bit long", Sparkle512core.init.setup 4 32) ∧
      SparkleRG.call 1 (Sparkle512core.init.setup 4 32) 5 5
        = (.error "`upper` must be strictly higher than `lower`", Sparkle512core.init.setup 4 32) :=
  ⟨(claim_C8_invalid_arguments (Sparkle512core.init.setup 4 32) 65 1 5 5).1 (by omega),
   (claim_C8_invalid_arguments (Sparkle512core.init.setup 4 32) 65 1 5 5).2 (by omega)⟩

/-- C7 counterexample: `setup` invoked with zero steps and zero output
capacity succeeds (the wrapper constructor raises nothing), and
`absorb` on a never-setup core is silently tolerated, returning a
definite core (steps 0, so the two permutations are no-ops and only
the two domain constants reach capacity word 15) instead of failing
with a ConfigurationError. -/
theorem claim_C7_counterexample :
    (SparkleRG.initE 0 0).isOk = true ∧
      Sparkle512core.init.absorb (List.replicate 48 0)
        = { steps := 0, state := [0, 0, 0, 0, 0, 0, 0, 0, 0, 0, 0, 0, 0, 0, 0, 3],
            entropy_tank := [], entropy_cursor := 0 } := by
  constructor
  · rfl
  · decide

/-- C7 amended: the code performs no configuration validation at all:
`setup` accepts any step count and output capacity (including zero)
without error, and `absorb` before `setup` runs without error on the
un-configured core, leaving it with zero steps and an empty tank. -/
theorem claim_C7_amended (steps rate : Nat) (payload : List Nat) :
    (SparkleRG.initE steps rate).isOk = true ∧
      (Sparkle512core.init.absorb payload).steps = 0 ∧
      (Sparkle512core.init.absorb payload).entropy_tank = [] :=
  ⟨rfl, rfl, rfl⟩

/-- C6 counterexample: a 64-byte payload exceeds the claimed maximum
block width (60 bytes: state width minus the reserved
domain-separation word), yet `SparkleRG.absorb` accepts it without any
error — the wrapper performs no size check. -/
theorem claim_C6_counterexample :
    (SparkleRG.absorbE (Sparkle512core.init.setup 4 32) (List.replicate 64 0)).isOk = true := rfl

/-- C6 amended: `SparkleRG.absorb` performs no payload-size check and
never fails; the only block-size enforcement in the repository is in
the `EschRG` wrapper, whose `_absorb_block` rejects payloads longer
than 31 bytes (a smaller bound than the state-capacity block width)
and accepts all shorter ones. -/
theorem claim_C6_amended (c : Sparkle512core) (x : List Nat) :
    ((EschRG.absorb_block c x).isOk = true ↔ x.length ≤ 31) ∧
      (SparkleRG.absorbE c x).isOk = true := by
  constructor
  · unfold EschRG.absorb_block
    by_cases h : x.length > 31
    · rw [if_pos h]
      simp only [Except.isOk, Except.toBool]
      constructor
      · intro hfalse; cases hfalse
      · intro hle; omega
    · rw [if_neg h]
      simp only [Except.isOk, Except.toBool]
      constructor
      · intro _; omega
      · intro _; trivial
  · rfl

theorem getUniformLoop_lt_range (bit_length range : Nat) :
    ∀ (fuel : Nat) (c : Sparkle512core) (r : Nat × Sparkle512core),
      getUniformLoop bit_length range fuel c = some r → r.1 < range := by
  intro fuel
  induction fuel with
  | zero =>
    intro c r h
    simp [getUniformLoop] at h
  | succ k ih =>
    intro c r h
    rw [getUniformLoop] at h
    by_cases hge : (c.get_n_bit_unsigned_integer bit_length).1 ≥ range
    · rw [if_pos hge] at h
      exact ih _ _ h
    · rw [if_neg hge] at h
      cases h
      omega

theorem get_unsigned_integer_in_range_some (fuel : Nat) (c : Sparkle512core)
    (lower upper v : Nat) (c' : Sparkle512core)
    (h : Sparkle512core.get_unsigned_integer_in_range fuel c lower upper = some (v, c')) :
    ∃ draw, draw < upper - lower ∧ v = lower + draw := by
  unfold Sparkle512core.get_unsigned_integer_in_range at h
  obtain ⟨r, hr, hf⟩ := Option.map_eq_some'.mp h
  have hlt := getUniformLoop_lt_range _ _ fuel c r hr
  refine ⟨r.1, hlt, ?_⟩
  have : lower + r.1 = v := congrArg Prod.fst hf
  omega

theorem drawStream_shift (bl : Nat) (c : Sparkle512core) (k : Nat) :
    drawStream bl c (k + 1) = drawStream bl (c.get_n_bit_unsigned_integer bl).2 k := by
  induction k with
  | zero => rfl
  | succ k ih =>
    show (drawStream bl c (k + 1)).2.get_n_bit_unsigned_integer bl = _
    rw [ih]
    rfl

theorem getUniformLoop_first (bl range : Nat) :
    ∀ (fuel : Nat) (c : Sparkle512core) (r : Nat × Sparkle512core),
      getUniformLoop bl range fuel c = some r →
      ∃ k, drawStream bl c k = r ∧ ∀ j, j < k → (drawStream bl c j).1 ≥ range := by
  intro fuel
  induction fuel with
  | zero =>
    intro c r h
    simp [getUniformLoop] at h
  | succ f ih =>
    intro c r h
    rw [getUniformLoop] at h
    by_cases hge : (c.get_n_bit_unsigned_integer bl).1 ≥ range
    · rw [if_pos hge] at h
      obtain ⟨k, hk, hprev⟩ := ih _ _ h
      refine ⟨k + 1, ?_, ?_⟩
      · rw [drawStream_shift]
        exact hk
      · intro j hj
        cases j with
        | zero => exact hge
        | succ j =>
          rw [drawStream_shift]
          exact hprev j (by omega)
    · rw [if_neg hge] at h
      cases h
      exact ⟨0, rfl, fun j hj => absurd hj (Nat.not_lt_zero j)⟩

/-- C4: for every call `get_uniform(lower, upper)` with `upper > lower`
that terminates, the returned value `v` satisfies
`lower <= v < upper`: the result is `lower + draw` where `draw` is the
first `get_bits(bit_length)` output strictly below
`range = upper - lower` (every earlier draw of the stream was
rejected as `>= range`), and the returned core is the one the
accepting draw produced. -/
theorem claim_C4_range_correct (fuel : Nat) (c : Sparkle512core) (lower upper v : Nat)
    (c' : Sparkle512core) (hlt : lower < upper)
    (h : Sparkle512core.get_unsigned_integer_in_range fuel c lower upper = some (v, c')) :
    (lower ≤ v ∧ v < upper) ∧
      ∃ k draw, drawStream (bitLengthC (upper - lower)) c k = (draw, c') ∧
        draw < upper - lower ∧ v = lower + draw ∧
        ∀ j, j < k → (drawStream (bitLengthC (upper - lower)) c j).1 ≥ upper - lower := by
  unfold Sparkle512core.get_unsigned_integer_in_range at h
  obtain ⟨r, hr, hf⟩ := Option.map_eq_some'.mp h
  obtain ⟨k, hk, hprev⟩ := getUniformLoop_first _ _ fuel c r hr
  have hlt' := getUniformLoop_lt_range _ _ fuel c r hr
  have hv : lower + r.1 = v := congrArg Prod.fst hf
  have hc : r.2 = c' := congrArg Prod.snd hf
  refine ⟨⟨by omega, by omega⟩, k, r.1, ?_, hlt', by omega, hprev⟩
  rw [← hc]
  exact hk

theorem claim_C4_range_correct_witness :
    ((5 ≤ 5 ∧ 5 < 7) ∧
      ∃ k draw, drawStream (bitLengthC (7 - 5)) (Sparkle512core.init.setup 4 32) k
          = (draw, { steps := 4, state := List.replicate 16 0,
                     entropy_tank := List.replicate 32 false, entropy_cursor := 2 }) ∧
        draw < 7 - 5 ∧ 5 = 5 + draw ∧
        ∀ j, j < k →
          (drawStream (bitLengthC (7 - 5)) (Sparkle512core.init.setup 4 32) j).1 ≥ 7 - 5) :=
  claim_C4_range_correct 1 (Sparkle512core.init.setup 4 32) 5 7 5
    { steps := 4, state := List.replicate 16 0,
      entropy_tank := List.replicate 32 false, entropy_cursor := 2 }
    (by omega) (by decide)

/-- C2 counterexample: on a freshly set-up generator
(`setup(4, 32)`, all-zero state, cleared tank, cursor 0), the call
`get_uniform(5, 6)` — i.e. `range == 1` — succeeds but leaves the
entropy cursor at 1: the rejection loop ran and consumed one tank
unit, contradicting the claim that the cursor and internal state are
unchanged and that no entropy is consumed. -/
theorem claim_C2_counterexample :
    (Sparkle512core.get_unsigned_integer_in_range 1 (Sparkle512core.init.setup 4 32) 5 6).map
        (fun r => r.2.entropy_cursor) = some 1 ∧
      (Sparkle512core.init.setup 4 32).entropy_cursor = 0 := by
  decide

/-- C2 amended: for `range == 1` the code does not shortcut: it enters
the rejection loop with `bit_length = 1` and keeps drawing single bits
until a cleared bit appears, consuming entropy; whenever the call
terminates, the value returned is `lower`. -/
theorem claim_C2_amended (fuel : Nat) (c : Sparkle512core) (lower v : Nat)
    (c' : Sparkle512core)
    (h : Sparkle512core.get_unsigned_integer_in_range fuel c lower (lower + 1) = some (v, c')) :
    v = lower := by
  obtain ⟨draw, hd, hv⟩ := get_unsigned_integer_in_range_some fuel c lower (lower + 1) v c' h
  omega

theorem claim_C2_amended_witness : 5 = 5 :=
  claim_C2_amended 1 (Sparkle512core.init.setup 4 32) 5 5
    { steps := 4, state := List.replicate 16 0,
      entropy_tank := List.replicate 32 false, entropy_cursor := 1 }
    (by decide)

/-- C1 counterexample: at `range = 2` (which is within the claim's
scope `range >= 2`), the smallest `b` with `2^b >= range` is 1, but
the code's `bit_length = 64 - clzll(range)` is 2, and
`2^bit_length < 2*range` fails (`4 < 4` is false). -/
theorem claim_C1_counterexample :
    ((2:Nat) ≤ 2 ^ 1 ∧ 1 < bitLengthC 2) ∧ ¬ 2 ^ bitLengthC 2 < 2 * 2 := by
  decide

theorem foldl_bitScan_lastSet (x L : Nat) (hL : x.testBit L = true)
    (hhigh : ∀ j, L < j → x.testBit j = false) :
    ∀ n, L < n →
      ∀ acc, (List.range n).foldl (fun a j => if x.testBit j then j + 1 else a) acc = L + 1 := by
  intro n
  induction n with
  | zero => intro h; omega
  | succ m ih =>
    intro hn acc
    rw [List.range_succ, List.foldl_append]
    simp only [List.foldl_cons, List.foldl_nil]
    rcases Nat.lt_or_ge L m with h | h
    · simp only [hhigh m h, Bool.false_eq_true, if_false]
      exact ih h acc
    · have hm : m = L := by omega
      subst hm
      simp [hL]

theorem bitlen64_eq_log2 (x : Nat) (h0 : 0 < x) (h64 : x < 2 ^ 64) :
    bitlen64 x = Nat.log2 x + 1 := by
  have hne : x ≠ 0 := by omega
  have hlow : 2 ^ Nat.log2 x ≤ x := Nat.log2_self_le hne
  have hhi : x < 2 ^ (Nat.log2 x + 1) := Nat.lt_log2_self
  have hlog : Nat.log2 x < 64 := (Nat.log2_lt hne).mpr h64
  have hL : x.testBit (Nat.log2 x) = true := by
    rw [Nat.testBit_to_div_mod]
    have hdiv : x / 2 ^ Nat.log2 x = 1 := by
      have hpos : 0 < 2 ^ Nat.log2 x := Nat.pos_pow_of_pos _ (by omega)
      have h1 : 1 ≤ x / 2 ^ Nat.log2 x := (Nat.one_le_div_iff hpos).mpr hlow
      have h2 : x / 2 ^ Nat.log2 x < 2 := by
        apply Nat.div_lt_of_lt_mul
        rw [← pow_succ]
        exact hhi
      omega
    simp [hdiv]
  have hhigh : ∀ j, Nat.log2 x < j → x.testBit j = false := by
    intro j hj
    apply Nat.testBit_lt_two_pow
    calc x < 2 ^ (Nat.log2 x + 1) := hhi
    _ ≤ 2 ^ j := Nat.pow_le_pow_right (by norm_num) (by omega)
  exact foldl_bitScan_lastSet x (Nat.log2 x) hL hhigh 64 hlog 0

/-- C1 amended: for every `range = upper - lower` with
`2 <= range < 2^64`, the `bit_length = 64 - clzll(range)` used by every
rejection-loop iteration is the smallest `b` such that `2^b > range`
(one more than the claimed value when `range` is a power of two), and
`2^bit_length <= 2*range` always holds (with equality exactly at
powers of two), so the acceptance probability of each draw is at least
one half and the expected number of draws is at most 2. -/
theorem claim_C1_amended (range : Nat) (h2 : 2 ≤ range) (h64 : range < 2 ^ 64) :
    (range < 2 ^ bitLengthC range ∧ ∀ b, range < 2 ^ b → bitLengthC range ≤ b) ∧
      2 ^ bitLengthC range ≤ 2 * range := by
  have hne : range ≠ 0 := by omega
  have hlog : Nat.log2 range < 64 := (Nat.log2_lt hne).mpr h64
  have hbl : bitLengthC range = Nat.log2 range + 1 := by
    unfold bitLengthC clzll
    rw [bitlen64_eq_log2 range (by omega) h64]
    omega
  refine ⟨⟨?_, ?_⟩, ?_⟩
  · rw [hbl]
    exact Nat.lt_log2_self
  · intro b hb
    rw [hbl]
    have := (Nat.log2_lt hne).mpr hb
    omega
  · rw [hbl, pow_succ]
    have := Nat.log2_self_le hne
    omega

theorem claim_C1_amended_witness :
    (5 < 2 ^ bitLengthC 5 ∧ ∀ b, 5 < 2 ^ b → bitLengthC 5 ≤ b) ∧
      2 ^ bitLengthC 5 ≤ 2 * 5 :=
  claim_C1_amended 5 (by omega) (by norm_num)

theorem getD_set_self (s : List Nat) (w v : Nat) (h : w < s.length) :
    (s.set w v).getD w 0 = v := by
  simp [List.getD_eq_getElem?_getD, List.getElem?_set, h]

theorem set_xor_step (s : List Nat) (w V t : Nat) (hw : w < s.length) :
    (s.set w V).set w ((s.set w V).getD w 0 ^^^ t) = s.set w (V ^^^ t) := by
  rw [getD_set_self _ _ _ hw, List.set_set]

theorem getD_lt_256 (b : List Nat) (hb : ∀ x ∈ b, x < 256) (i : Nat) : b.getD i 0 < 256 := by
  rcases Nat.lt_or_ge i b.length with h | h
  · rw [List.getD_eq_getElem b 0 h]
    exact hb _ (List.getElem_mem h)
  · rw [List.getD_eq_default b 0 h]
    omega

theorem xor_chain_or (x a b c d : Bool)
    (h1 : a = true → b = false ∧ c = false ∧ d = false)
    (h2 : b = true → c = false ∧ d = false)
    (h3 : c = true → d = false) :
    xor (xor (xor (xor x a) b) c) d = xor x (a || b || c || d) := by
  cases a <;> cases b <;> cases c <;> cases d <;> simp_all

theorem xor_le_chunk (g a b c d : Nat)
    (ha : a < 256) (hb : b < 256) (hc : c < 256) (_hd : d < 256) :
    (((g ^^^ a <<< 0) ^^^ b <<< 8) ^^^ c <<< 16) ^^^ d <<< 24
      = g ^^^ (a ||| b <<< 8 ||| c <<< 16 ||| d <<< 24) := by
  have hbit : ∀ (v m : Nat), v < 256 → 8 ≤ m → v.testBit m = false := by
    intro v m hv hm
    apply Nat.testBit_lt_two_pow
    calc v < 256 := hv
    _ = 2 ^ 8 := by norm_num
    _ ≤ 2 ^ m := Nat.pow_le_pow_right (by norm_num) hm
  apply Nat.eq_of_testBit_eq
  intro i
  simp only [Nat.testBit_xor, Nat.testBit_lor, Nat.testBit_shiftLeft, Nat.shiftLeft_zero,
    ge_iff_le]
  apply xor_chain_or
  · intro hA
    have hi : i < 8 := by
      by_contra hge
      rw [hbit a i ha (by omega)] at hA
      exact Bool.false_ne_true hA
    refine ⟨?_, ?_, ?_⟩ <;> simp [show ¬ 8 ≤ i by omega, show ¬ 16 ≤ i by omega,
      show ¬ 24 ≤ i by omega]
  · intro hB
    have hi : i < 16 := by
      by_contra hge
      rw [hbit b (i - 8) hb (by omega), Bool.and_false] at hB
      exact Bool.false_ne_true hB
    constructor <;> simp [show ¬ 16 ≤ i by omega, show ¬ 24 ≤ i by omega]
  · intro hC
    have hi : i < 24 := by
      by_contra hge
      rw [hbit c (i - 16) hc (by omega), Bool.and_false] at hC
      exact Bool.false_ne_true hC
    simp [show ¬ 24 ≤ i by omega]

theorem absorb_step_eq (b : List Nat) (hb : ∀ x ∈ b, x < 256) (s : List Nat) (w : Nat) :
    (let s1 := s.set w (s.getD w 0 ^^^ ((b.getD (4 * w) 0) <<< 0))
     let s2 := s1.set w (s1.getD w 0 ^^^ ((b.getD (4 * w + 1) 0) <<< 8))
     let s3 := s2.set w (s2.getD w 0 ^^^ ((b.getD (4 * w + 2) 0) <<< 16))
     s3.set w (s3.getD w 0 ^^^ ((b.getD (4 * w + 3) 0) <<< 24)))
      = s.set w (s.getD w 0 ^^^ leChunk b w) := by
  by_cases hw : w < s.length
  · dsimp only
    rw [set_xor_step _ _ _ _ hw, set_xor_step _ _ _ _ hw, set_xor_step _ _ _ _ hw]
    rw [xor_le_chunk _ _ _ _ _ (getD_lt_256 b hb _) (getD_lt_256 b hb _) (getD_lt_256 b hb _)
      (getD_lt_256 b hb _)]
    rfl
  · have hle : s.length ≤ w := by omega
    dsimp only
    simp only [List.set_eq_of_length_le hle]

theorem foldl_congr_fn {α β : Type} (f g : α → β → α) (h : ∀ a b, f a b = g a b) :
    ∀ (l : List β) (a : α), l.foldl f a = l.foldl g a := by
  intro l
  induction l with
  | nil => intro a; rfl
  | cons x xs ih =>
    intro a
    simp only [List.foldl_cons]
    rw [h]
    exact ih _

theorem absorbFold_eq_specFold (b : List Nat) (hb : ∀ x ∈ b, x < 256) (st : List Nat) :
    absorbFold st b = specFold st b := by
  unfold absorbFold specFold
  exact foldl_congr_fn _ _ (fun s w => absorb_step_eq b hb s w) _ st

theorem pad48_bytes_lt (data : List Nat) (hb : ∀ x ∈ data, x < 256) :
    ∀ x ∈ pad48 data, x < 256 := by
  intro x hx
  simp only [pad48, List.mem_append] at hx
  rcases hx with h | h
  · exact hb x h
  · rw [List.eq_of_mem_replicate h]
    omega

/-- C5: every `absorb(data)` call (through the wrapper, which
zero-pads the payload to the fixed 48-byte block width) performs
exactly the claimed sequence: XOR domain constant 1 into the last
state word; XOR the padded data, interpreted as little-endian 32-bit
chunks, into successive state words starting at word 0; permute; XOR
domain constant 2 into the last state word; permute; squeeze (tank
rewritten from the state, cursor reset to 0). -/
theorem claim_C5_absorb_sequence (c : Sparkle512core) (data : List Nat)
    (_hlen : data.length ≤ 48) (hbytes : ∀ x ∈ data, x < 256) :
    SparkleRG.absorb c data = absorbSpec c data := by
  simp only [SparkleRG.absorb, Sparkle512core.absorb, absorbSpec, xorCapacityWord]
  rw [absorbFold_eq_specFold (pad48 data) (pad48_bytes_lt data hbytes)]

theorem claim_C5_absorb_sequence_witness :
    SparkleRG.absorb (Sparkle512core.init.setup 4 32) [1, 2, 3]
      = absorbSpec (Sparkle512core.init.setup 4 32) [1, 2, 3] :=
  claim_C5_absorb_sequence (Sparkle512core.init.setup 4 32) [1, 2, 3] (by decide) (by decide)

set_option maxRecDepth 100000 in
/-- C3 (code slip): the accumulator update of
`get_n_bit_unsigned_integer` is `result |= (1 << i)` with the 32-bit
`int` literal `1`, so consuming a set tank bit at accumulator position
31 ORs in the sign-extended value `2^64 - 2^31` instead of `2^31`.  On
the reachable generator `setup(4, 32)` followed by the wrapper call
`absorb([0])` (whose squeezed tank has bit 31 set), `get_bits(32)`
returns `0xFFFFFFFFB7D22910`: its bits at positions >= 32 are *not*
zero (the value is not below `2^32`), contradicting the claimed
accumulator shape for every `n` in `[0, 64]`. -/
theorem claim_C3_bug_eval :
    (Sparkle512core.get_n_bit_unsigned_integer
        (SparkleRG.absorb (Sparkle512core.init.setup 4 32) [0]) 32).1
        = 18446744072498620688 ∧
      ¬ (Sparkle512core.get_n_bit_unsigned_integer
          (SparkleRG.absorb (Sparkle512core.init.setup 4 32) [0]) 32).1 < 2 ^ 32 := by
  decide
